import Mathlib

/-!
Verification of the tile Request Stage of maplibre-rs
(`maplibre/src/stages/request_stage.rs`) and the dispatched procedure
`schedule`, against the natural-language specification of the
tile-acquisition pipeline.

The embedding follows the structure of `request_stage.rs`.  Collaborators
whose implementation lives outside the sampled sources (the tile
repository, the view state, the asynchronous-procedure-call substrate,
the data-source client and the processing pipeline) are modelled from
the specification or kept as explicit parameters, as noted on each
definition.  Effectful calls (needs-fetch queries, APC submissions,
fetches, message sends) are made observable by returning explicit event
traces, so that "exactly N calls occur" properties are statable.
-/

namespace Maplibre

/-- Structure `WorldTileCoords`: a tile coordinate (x, y, zoom) in the quad-tree
addressing scheme. -/
structure WorldTileCoords where
  x : Int
  y : Int
  z : Nat
deriving DecidableEq, Repr

/-- Structure `Quadkey`: the deterministic quad-tree encoding of a tile coordinate.
Modelled from the spec: only its constructibility (`Option.isSome` of
`build_quad_key`) is consumed by the Request Stage, so the digits are
carried opaquely. -/
structure Quadkey where
  digits : List Nat
deriving DecidableEq, Repr

/-- Enum `TileStatus`: the per-coordinate state kept by the tile repository
(the spec's TileState enum {Pending, Ready, Unavailable}). -/
inductive TileStatus where
  | pending
  | ready
  | unavailable
deriving DecidableEq, Repr

/-- The tile repository (Tile State Store): a per-coordinate status
registry, modelled as an association list keyed by coordinate. -/
def TileRepository : Type := List (WorldTileCoords × TileStatus)

/-- Status lookup in the tile repository: `none` when no entry exists. -/
def TileRepository.statusOf (repo : TileRepository) (c : WorldTileCoords) :
    Option TileStatus :=
  (repo.find? (fun e => decide (e.1 = c))).map (fun e => e.2)

/-- Overwrite (or create) the entry for a coordinate. -/
def TileRepository.setStatus (repo : TileRepository) (c : WorldTileCoords)
    (s : TileStatus) : TileRepository :=
  (c, s) :: repo.filter (fun e => !decide (e.1 = c))

/-- Modelled from the spec: `TileRepository::is_tile_pending_or_done` is not
among the sampled sources; the spec specifies the Tile State Store's
needs-fetch query consulted at this call site as "true iff no entry exists
or entry is not Pending/Ready (re-fetch allowed for previously Unavailable
entries)". -/
def TileRepository.is_tile_pending_or_done (repo : TileRepository)
    (c : WorldTileCoords) : Bool :=
  match repo.statusOf c with
  | none => true
  | some s => !(s == .pending || s == .ready)

/-- The error returned when marking an already outstanding tile
(the spec's `AlreadyPendingError`). -/
inductive AlreadyPendingError where
  | alreadyPending
deriving DecidableEq, Repr

/-- Modelled from the spec: `TileRepository::mark_tile_pending` is not
among the sampled sources; the spec's `mark_pending` "atomically
transitions Unknown/Unavailable → Pending; fails if already Pending ...
or already Ready". -/
def TileRepository.mark_tile_pending (repo : TileRepository)
    (c : WorldTileCoords) : Except AlreadyPendingError TileRepository :=
  match repo.statusOf c with
  | some .pending => .error .alreadyPending
  | some .ready => .error .alreadyPending
  | _ => .ok (repo.setStatus c .pending)

/-- A style layer, of which the Request Stage consumes only the optional
source-layer name (`layer.source_layer`). -/
structure StyleLayer where
  source_layer : Option String
deriving DecidableEq, Repr

/-- The active style: an enumerable list of layer descriptors. -/
structure Style where
  layers : List StyleLayer
deriving DecidableEq, Repr

/-- The `source_layers` set built at the top of `request_tiles_in_view`:
`style.layers.iter().filter_map(|layer| layer.source_layer.clone())`
collected into a `HashSet<String>`, modelled as the deduplicated list of
the source-layer names. -/
def Style.source_layer_names (style : Style) : List String :=
  (style.layers.filterMap (fun layer => layer.source_layer)).dedup

/-- Structure `TileRequest`: the value object {coordinate, requested layer-name set}
passed into the dispatch boundary.  The layer set (a `HashSet<String>` in
the source) is modelled as a duplicate-free list carrying its iteration
order. -/
structure TileRequest where
  coords : WorldTileCoords
  layers : List String
deriving DecidableEq, Repr

/-- Outcome of a driver-side computation that contains `.unwrap()` calls:
either a normal result or a panic of the driver. -/
inductive Outcome (α : Type) where
  | panicked
  | ok (res : α)
deriving DecidableEq, Repr

/-- Observable effects of one driver-side request pass: the final tile
repository, the trace of needs-fetch queries made against it, and the
trace of `TileRequest`s submitted to the APC. -/
structure DriverResult where
  repo : TileRepository
  queried : List WorldTileCoords
  dispatched : List TileRequest

/-- Function `RequestStage::request_tile`: gated on the repository's needs-fetch
query; on a positive answer the tile is marked pending (`.unwrap()`: a
panic on error) and a `TileRequest` is submitted via the APC
(`.unwrap()`: a panic on error).  `apcOk` abstracts whether the APC
`call` succeeds for a given request; the APC implementation is outside
the sampled sources. -/
def RequestStage.request_tile (apcOk : TileRequest → Bool)
    (repo : TileRepository) (coords : WorldTileCoords)
    (layers : List String) : Outcome DriverResult :=
  if repo.is_tile_pending_or_done coords then
    match repo.mark_tile_pending coords with
    | .error _ => .panicked
    | .ok repo' =>
      if apcOk { coords := coords, layers := layers } then
        .ok { repo := repo', queried := [coords],
              dispatched := [{ coords := coords, layers := layers }] }
      else
        .panicked
  else
    .ok { repo := repo, queried := [coords], dispatched := [] }

/-- The `for coords in view_region.iter()` loop of `request_tiles_in_view`:
each coordinate whose quad key is constructible is passed to
`request_tile`; the repository is threaded through and the event traces
are concatenated. -/
def requestLoop (apcOk : TileRequest → Bool)
    (bqk : WorldTileCoords → Option Quadkey) (layers : List String) :
    TileRepository → List WorldTileCoords → Outcome DriverResult
  | repo, [] => .ok { repo := repo, queried := [], dispatched := [] }
  | repo, c :: rest =>
    if (bqk c).isSome then
      match RequestStage.request_tile apcOk repo c layers with
      | .panicked => .panicked
      | .ok res₁ =>
        match requestLoop apcOk bqk layers res₁.repo rest with
        | .panicked => .panicked
        | .ok res₂ =>
          .ok { repo := res₂.repo,
                queried := res₁.queried ++ res₂.queried,
                dispatched := res₁.dispatched ++ res₂.dispatched }
    else
      requestLoop apcOk bqk layers repo rest

/-- Function `RequestStage::request_tiles_in_view`: computes the style's
source-layer name set once, then runs the per-coordinate loop over the
view region.  `bqk` is `WorldTileCoords::build_quad_key`, whose
implementation is outside the sampled sources. -/
def RequestStage.request_tiles_in_view (apcOk : TileRequest → Bool)
    (bqk : WorldTileCoords → Option Quadkey) (repo : TileRepository)
    (style : Style) (view_region : List WorldTileCoords) :
    Outcome DriverResult :=
  requestLoop apcOk bqk style.source_layer_names repo view_region

/-- The view state consulted by the Request Stage.  Modelled from the
spec: camera pose and zoom each carry a current value, a reference value
and a fixed epsilon threshold (all carried here in scaled integer units,
e.g. hundredths of the spec's normalized units, so that the threshold
comparison is exact); the visible-tile snapshot that `create_view_region`
would derive from the pose is carried as data, the projection math being
out of scope. -/
structure ViewState where
  camera : ℤ
  zoom : ℤ
  camera_reference : ℤ
  zoom_reference : ℤ
  camera_epsilon : ℤ
  zoom_epsilon : ℤ
  region : Option (List WorldTileCoords)
deriving DecidableEq

/-- Modelled from the spec: `enumerate(view_state) -> Option<ViewRegion>`,
`None` when no view region can be computed. -/
def ViewState.create_view_region (vs : ViewState) :
    Option (List WorldTileCoords) :=
  vs.region

/-- Modelled from the spec: the camera change detector fires when the
camera delta exceeds its epsilon threshold. -/
def ViewState.did_camera_change (vs : ViewState) : Bool :=
  decide (vs.camera_epsilon < |vs.camera - vs.camera_reference|)

/-- Modelled from the spec: the zoom change detector fires when the zoom
delta exceeds its own epsilon threshold. -/
def ViewState.did_zoom_change (vs : ViewState) : Bool :=
  decide (vs.zoom_epsilon < |vs.zoom - vs.zoom_reference|)

/-- Modelled from the spec: `update_references` sets the reference values
to the current pose and zoom. -/
def ViewState.update_references (vs : ViewState) : ViewState :=
  { vs with camera_reference := vs.camera, zoom_reference := vs.zoom }

/-- Observable effects of one `RequestStage::run` invocation. -/
structure RunResult where
  repo : TileRepository
  view_state : ViewState
  queried : List WorldTileCoords
  dispatched : List TileRequest

/-- Function `RequestStage::run` (the `Stage` impl): creates the view region,
requests tiles in view when either change detector fired and a region
exists, then updates the view-state references. -/
def RequestStage.run (apcOk : TileRequest → Bool)
    (bqk : WorldTileCoords → Option Quadkey) (repo : TileRepository)
    (view_state : ViewState) (style : Style) : Outcome RunResult :=
  let view_region := view_state.create_view_region
  let step : Outcome DriverResult :=
    if view_state.did_camera_change || view_state.did_zoom_change then
      match view_region with
      | some vr => RequestStage.request_tiles_in_view apcOk bqk repo style vr
      | none => .ok { repo := repo, queried := [], dispatched := [] }
    else
      .ok { repo := repo, queried := [], dispatched := [] }
  match step with
  | .panicked => .panicked
  | .ok res =>
    .ok { repo := res.repo, view_state := view_state.update_references,
          queried := res.queried, dispatched := res.dispatched }

/-- Enum `FetchError`: a network/storage failure of the data-source client for
one tile.  Modelled from the spec's failure taxonomy. -/
inductive FetchError where
  | timeout
  | other (msg : String)
deriving DecidableEq, Repr

/-- A hard failure of the processing pipeline invocation (corrupt,
unparsable payload).  The pipeline implementation is outside the sampled
sources; only the error value is propagated by `schedule`. -/
structure PipelineError where
  msg : String
deriving DecidableEq, Repr

/-- A failure to deliver a message back across the dispatch boundary
(the receiving side was torn down). -/
structure SendError where
  msg : String
deriving DecidableEq, Repr

/-- Enum `ProcedureError`: the failure taxonomy of a dispatched procedure. -/
inductive ProcedureError where
  | incompatibleInput
  | execution (e : PipelineError)
  | send (e : SendError)
deriving DecidableEq, Repr

/-- Enum `Message`: the tagged union delivered back across the dispatch
boundary.  Modelled from the spec: {DecodedLayer, LayerUnavailable, …};
a decoded layer carries its coordinate and layer name (the decoded
geometry payload is opaque to `schedule`). -/
inductive Message where
  | decodedLayer (coords : WorldTileCoords) (layer : String)
  | layerUnavailable (coords : WorldTileCoords) (layer : String)
deriving DecidableEq, Repr

/-- Enum `Input`: the tagged union of typed inputs a dispatched procedure may
receive.  Modelled from the spec: `schedule` handles only the
`TileRequest` variant; the variants it does not handle are collapsed
into `other`. -/
inductive Input where
  | tileRequest (req : TileRequest)
  | other
deriving DecidableEq, Repr

/-- The execution-context capabilities visible to `schedule`, as pure
functions: the data-source client's `fetch`, the processing pipeline's
`process` (returning the messages it delivered via the context together
with its result), and the context's `send`.  Their implementations are
outside the sampled sources. -/
structure ScheduleEnv where
  fetch : WorldTileCoords → Except FetchError (List Nat)
  process : TileRequest → List Nat → List Message × Except PipelineError Unit
  send : Message → Except SendError Unit

/-- Observable effects of one `schedule` invocation: the coordinates
fetched from the data source, the messages successfully sent, and the
procedure's result. -/
structure ScheduleResult where
  fetched : List WorldTileCoords
  sent : List Message
  result : Except ProcedureError Unit
deriving Repr

/-- The `for to_load in &input.layers` loop of `schedule`'s fetch-error
branch: one `LayerUnavailable` message per requested layer; a failing
send maps its error through `ProcedureError::Send` and returns
immediately (the `?` operator). -/
def sendUnavailableLoop (send : Message → Except SendError Unit)
    (coords : WorldTileCoords) :
    List String → List Message × Except ProcedureError Unit
  | [] => ([], .ok ())
  | to_load :: rest =>
    match send (.layerUnavailable coords to_load) with
    | .error e => ([], .error (.send e))
    | .ok _ =>
      let (ms, r) := sendUnavailableLoop send coords rest
      (Message.layerUnavailable coords to_load :: ms, r)

/-- The dispatched procedure `schedule`: a non-`TileRequest` input fails
with `IncompatibleInput`; otherwise the tile is fetched, a successful
fetch is handed to the processing pipeline (a pipeline error surfacing
as `ProcedureError::Execution`), and a failed fetch degrades to one
`LayerUnavailable` message per requested layer. -/
def schedule (env : ScheduleEnv) (input : Input) : ScheduleResult :=
  match input with
  | .other =>
    { fetched := [], sent := [], result := .error .incompatibleInput }
  | .tileRequest req =>
    match env.fetch req.coords with
    | .ok data =>
      let pr := env.process req data
      { fetched := [req.coords], sent := pr.1,
        result :=
          match pr.2 with
          | .ok _ => .ok ()
          | .error e => .error (.execution e) }
    | .error _ =>
      let mr := sendUnavailableLoop env.send req.coords req.layers
      { fetched := [req.coords], sent := mr.1, result := mr.2 }

/-! ### Helper lemmas about the tile repository -/

theorem find?_filter_ne (l : List (WorldTileCoords × TileStatus))
    (c c' : WorldTileCoords) (h : c' ≠ c) :
    (l.filter (fun e => !decide (e.1 = c))).find? (fun e => decide (e.1 = c')) =
      l.find? (fun e => decide (e.1 = c')) := by
  induction l with
  | nil => rfl
  | cons e rest ih =>
    by_cases he : e.1 = c
    · rw [List.find?_cons_of_neg _ (by simp [he]; exact Ne.symm h),
        List.filter_cons_of_neg (by simp [he]), ih]
    · rw [List.filter_cons_of_pos (by simp [he])]
      by_cases hp : e.1 = c'
      · rw [List.find?_cons_of_pos _ (by simp [hp]),
          List.find?_cons_of_pos _ (by simp [hp])]
      · rw [List.find?_cons_of_neg _ (by simp [hp]),
          List.find?_cons_of_neg _ (by simp [hp]), ih]

theorem TileRepository.statusOf_setStatus (repo : TileRepository)
    (c c' : WorldTileCoords) (s : TileStatus) :
    (repo.setStatus c s).statusOf c' =
      if c' = c then some s else repo.statusOf c' := by
  by_cases h : c' = c
  · subst h
    simp [TileRepository.setStatus, TileRepository.statusOf]
  · rw [if_neg h]
    unfold TileRepository.setStatus TileRepository.statusOf
    rw [List.find?_cons_of_neg _ (by simp; exact Ne.symm h),
      find?_filter_ne _ _ _ h]

theorem TileRepository.gate_congr (repo₁ repo₂ : TileRepository)
    (c : WorldTileCoords) (h : repo₁.statusOf c = repo₂.statusOf c) :
    repo₁.is_tile_pending_or_done c = repo₂.is_tile_pending_or_done c := by
  unfold TileRepository.is_tile_pending_or_done
  rw [h]

/-- The needs-fetch query answers `true` exactly when no entry exists or
the entry is neither `Pending` nor `Ready`. -/
theorem TileRepository.gate_iff (repo : TileRepository) (c : WorldTileCoords) :
    repo.is_tile_pending_or_done c = true ↔
      (repo.statusOf c = none ∨
        (repo.statusOf c ≠ some .pending ∧ repo.statusOf c ≠ some .ready)) := by
  unfold TileRepository.is_tile_pending_or_done
  rcases hs : repo.statusOf c with _ | s
  · simp
  · cases s <;> simp

theorem TileRepository.mark_tile_pending_of_gate (repo : TileRepository)
    (c : WorldTileCoords) (h : repo.is_tile_pending_or_done c = true) :
    repo.mark_tile_pending c = .ok (repo.setStatus c .pending) := by
  unfold TileRepository.is_tile_pending_or_done at h
  unfold TileRepository.mark_tile_pending
  rcases hs : repo.statusOf c with _ | s
  · rfl
  · rw [hs] at h
    cases s <;> simp_all

/-! ### Helper lemmas about `request_tile` -/

theorem request_tile_gate_false (apcOk : TileRequest → Bool)
    (repo : TileRepository) (c : WorldTileCoords) (layers : List String)
    (h : repo.is_tile_pending_or_done c = false) :
    RequestStage.request_tile apcOk repo c layers =
      .ok { repo := repo, queried := [c], dispatched := [] } := by
  unfold RequestStage.request_tile
  simp [h]

theorem request_tile_gate_true (apcOk : TileRequest → Bool)
    (repo : TileRepository) (c : WorldTileCoords) (layers : List String)
    (h : repo.is_tile_pending_or_done c = true)
    (ha : apcOk { coords := c, layers := layers } = true) :
    RequestStage.request_tile apcOk repo c layers =
      .ok { repo := repo.setStatus c .pending, queried := [c],
            dispatched := [{ coords := c, layers := layers }] } := by
  unfold RequestStage.request_tile
  rw [TileRepository.mark_tile_pending_of_gate repo c h]
  simp [h, ha]

theorem request_tile_apc_panic (apcOk : TileRequest → Bool)
    (repo : TileRepository) (c : WorldTileCoords) (layers : List String)
    (h : repo.is_tile_pending_or_done c = true)
    (ha : apcOk { coords := c, layers := layers } = false) :
    RequestStage.request_tile apcOk repo c layers = .panicked := by
  unfold RequestStage.request_tile
  rw [TileRepository.mark_tile_pending_of_gate repo c h]
  simp [h, ha]

/-! ### Characterization of the request loop -/

/-- On a duplicate-free view region, a non-panicking request pass queries
the store once per constructible coordinate, dispatches exactly the
coordinates whose needs-fetch query (against the initial repository)
answers `true`, and marks exactly those coordinates `Pending`. -/
theorem requestLoop_ok_char (apcOk : TileRequest → Bool)
    (bqk : WorldTileCoords → Option Quadkey) (layers : List String)
    (l : List WorldTileCoords) :
    ∀ (repo : TileRepository) (res : DriverResult), l.Nodup →
      requestLoop apcOk bqk layers repo l = .ok res →
      res.queried = l.filter (fun c => (bqk c).isSome) ∧
      res.dispatched =
        ((l.filter (fun c => (bqk c).isSome)).filter
            (fun c => repo.is_tile_pending_or_done c)).map
          (fun c => { coords := c, layers := layers }) ∧
      (∀ c, res.repo.statusOf c =
        if c ∈ (l.filter (fun c' => (bqk c').isSome)).filter
            (fun c' => repo.is_tile_pending_or_done c')
        then some TileStatus.pending else repo.statusOf c) := by
  induction l with
  | nil =>
    intro repo res _ hok
    unfold requestLoop at hok
    cases hok
    exact ⟨rfl, rfl, fun c => by simp⟩
  | cons c rest ih =>
    intro repo res hnd hok
    obtain ⟨hc_notin, hnd'⟩ := List.nodup_cons.mp hnd
    unfold requestLoop at hok
    by_cases hbqk : (bqk c).isSome = true
    · have hfc : List.filter (fun c' => (bqk c').isSome) (c :: rest) =
          c :: List.filter (fun c' => (bqk c').isSome) rest := by
        simp [List.filter_cons, hbqk]
      rw [if_pos hbqk] at hok
      by_cases hgate : repo.is_tile_pending_or_done c = true
      · have hgc : List.filter (fun c' => repo.is_tile_pending_or_done c')
            (c :: List.filter (fun c' => (bqk c').isSome) rest) =
            c :: (List.filter (fun c' => (bqk c').isSome) rest).filter
              (fun c' => repo.is_tile_pending_or_done c') := by
          simp [List.filter_cons, hgate]
        by_cases ha : apcOk { coords := c, layers := layers } = true
        · rw [request_tile_gate_true apcOk repo c layers hgate ha] at hok
          dsimp only at hok
          rcases hrec : requestLoop apcOk bqk layers
              (repo.setStatus c .pending) rest with _ | res₂
          · rw [hrec] at hok
            cases hok
          · rw [hrec] at hok
            dsimp only at hok
            cases hok
            obtain ⟨hq, hd, hs⟩ := ih (repo.setStatus c .pending) res₂ hnd' hrec
            have hagree : ∀ x ∈ rest.filter (fun c' => (bqk c').isSome),
                (repo.setStatus c .pending).is_tile_pending_or_done x =
                  repo.is_tile_pending_or_done x := by
              intro x hx
              have hxr : x ∈ rest := (List.mem_filter.mp hx).1
              have hxc : x ≠ c := fun hh => hc_notin (hh ▸ hxr)
              exact TileRepository.gate_congr _ _ x
                (by rw [TileRepository.statusOf_setStatus, if_neg hxc])
            have hfilter :
                (rest.filter (fun c' => (bqk c').isSome)).filter
                    (fun c' => (repo.setStatus c .pending).is_tile_pending_or_done c') =
                  (rest.filter (fun c' => (bqk c').isSome)).filter
                    (fun c' => repo.is_tile_pending_or_done c') :=
              List.filter_congr hagree
            refine ⟨?_, ?_, ?_⟩
            · rw [hfc]
              simpa using hq
            · rw [hfc, hgc, List.map_cons]
              rw [hfilter] at hd
              simpa using hd
            · intro c''
              dsimp only
              rw [hfc, hgc]
              have hthis := hs c''
              rw [hfilter] at hthis
              by_cases hcc : c'' = c
              · subst hcc
                rw [if_pos (List.mem_cons_self _ _), hthis]
                by_cases hmem : c'' ∈ (rest.filter (fun c' => (bqk c').isSome)).filter
                    (fun c' => repo.is_tile_pending_or_done c')
                · rw [if_pos hmem]
                · rw [if_neg hmem, TileRepository.statusOf_setStatus, if_pos rfl]
              · rw [hthis, TileRepository.statusOf_setStatus, if_neg hcc]
                by_cases hmem : c'' ∈ (rest.filter (fun c' => (bqk c').isSome)).filter
                    (fun c' => repo.is_tile_pending_or_done c')
                · rw [if_pos hmem, if_pos (List.mem_cons_of_mem c hmem)]
                · rw [if_neg hmem, if_neg (by
                    intro hcons
                    rcases List.mem_cons.mp hcons with h1 | h2
                    · exact hcc h1
                    · exact hmem h2)]
        · rw [request_tile_apc_panic apcOk repo c layers hgate
            (by simpa using ha)] at hok
          cases hok
      · have hgate' : repo.is_tile_pending_or_done c = false := by
          simpa using hgate
        have hgc : List.filter (fun c' => repo.is_tile_pending_or_done c')
            (c :: List.filter (fun c' => (bqk c').isSome) rest) =
            (List.filter (fun c' => (bqk c').isSome) rest).filter
              (fun c' => repo.is_tile_pending_or_done c') := by
          simp [List.filter_cons, hgate']
        rw [request_tile_gate_false apcOk repo c layers hgate'] at hok
        dsimp only at hok
        rcases hrec : requestLoop apcOk bqk layers repo rest with _ | res₂
        · rw [hrec] at hok
          cases hok
        · rw [hrec] at hok
          dsimp only at hok
          cases hok
          obtain ⟨hq, hd, hs⟩ := ih repo res₂ hnd' hrec
          refine ⟨?_, ?_, ?_⟩
          · rw [hfc]
            simpa using hq
          · rw [hfc, hgc]
            simpa using hd
          · intro c''
            rw [hfc, hgc]
            exact hs c''
    · have hbqk' : (bqk c).isSome = false := by simpa using hbqk
      have hfc : List.filter (fun c' => (bqk c').isSome) (c :: rest) =
          List.filter (fun c' => (bqk c').isSome) rest := by
        simp [List.filter_cons, hbqk']
      rw [if_neg hbqk] at hok
      obtain ⟨hq, hd, hs⟩ := ih repo res hnd' hok
      refine ⟨?_, ?_, ?_⟩
      · rw [hfc]
        exact hq
      · rw [hfc]
        exact hd
      · intro c''
        rw [hfc]
        exact hs c''

/-- Without any duplicate-freeness assumption: every query targets a
constructible in-view coordinate, every dispatched request carries the
given layer set and a constructible in-view coordinate, and coordinates
without a constructible key keep their repository entry. -/
theorem requestLoop_ok_shape (apcOk : TileRequest → Bool)
    (bqk : WorldTileCoords → Option Quadkey) (layers : List String)
    (l : List WorldTileCoords) :
    ∀ (repo : TileRepository) (res : DriverResult),
      requestLoop apcOk bqk layers repo l = .ok res →
      (∀ c ∈ res.queried, c ∈ l ∧ (bqk c).isSome = true) ∧
      (∀ req ∈ res.dispatched,
        req.layers = layers ∧ (bqk req.coords).isSome = true ∧ req.coords ∈ l) ∧
      (∀ c, bqk c = none → res.repo.statusOf c = repo.statusOf c) := by
  induction l with
  | nil =>
    intro repo res hok
    unfold requestLoop at hok
    cases hok
    exact ⟨by simp, by simp, fun c _ => rfl⟩
  | cons c rest ih =>
    intro repo res hok
    unfold requestLoop at hok
    by_cases hbqk : (bqk c).isSome = true
    · rw [if_pos hbqk] at hok
      by_cases hgate : repo.is_tile_pending_or_done c = true
      · by_cases ha : apcOk { coords := c, layers := layers } = true
        · rw [request_tile_gate_true apcOk repo c layers hgate ha] at hok
          dsimp only at hok
          rcases hrec : requestLoop apcOk bqk layers
              (repo.setStatus c .pending) rest with _ | res₂
          · rw [hrec] at hok
            cases hok
          · rw [hrec] at hok
            dsimp only at hok
            cases hok
            obtain ⟨hq, hd, hs⟩ := ih (repo.setStatus c .pending) res₂ hrec
            refine ⟨?_, ?_, ?_⟩
            · intro x hx
              dsimp only at hx
              rcases List.mem_cons.mp (by simpa using hx) with h1 | h2
              · exact ⟨h1 ▸ List.mem_cons_self _ _, h1 ▸ hbqk⟩
              · obtain ⟨hr, hb⟩ := hq x h2
                exact ⟨List.mem_cons_of_mem c hr, hb⟩
            · intro req hreq
              dsimp only at hreq
              rcases List.mem_cons.mp (by simpa using hreq) with h1 | h2
              · subst h1
                exact ⟨rfl, hbqk, List.mem_cons_self _ _⟩
              · obtain ⟨hl, hb, hr⟩ := hd req h2
                exact ⟨hl, hb, List.mem_cons_of_mem c hr⟩
            · intro x hx
              dsimp only
              rw [hs x hx, TileRepository.statusOf_setStatus,
                if_neg (fun hh => by rw [hh] at hx; rw [hx] at hbqk; cases hbqk)]
        · rw [request_tile_apc_panic apcOk repo c layers hgate
            (by simpa using ha)] at hok
          cases hok
      · have hgate' : repo.is_tile_pending_or_done c = false := by
          simpa using hgate
        rw [request_tile_gate_false apcOk repo c layers hgate'] at hok
        dsimp only at hok
        rcases hrec : requestLoop apcOk bqk layers repo rest with _ | res₂
        · rw [hrec] at hok
          cases hok
        · rw [hrec] at hok
          dsimp only at hok
          cases hok
          obtain ⟨hq, hd, hs⟩ := ih repo res₂ hrec
          refine ⟨?_, ?_, ?_⟩
          · intro x hx
            dsimp only at hx
            rcases List.mem_cons.mp (by simpa using hx) with h1 | h2
            · exact ⟨h1 ▸ List.mem_cons_self _ _, h1 ▸ hbqk⟩
            · obtain ⟨hr, hb⟩ := hq x h2
              exact ⟨List.mem_cons_of_mem c hr, hb⟩
          · intro req hreq
            dsimp only at hreq
            obtain ⟨hl, hb, hr⟩ := hd req (by simpa using hreq)
            exact ⟨hl, hb, List.mem_cons_of_mem c hr⟩
          · intro x hx
            dsimp only
            exact hs x hx
    · rw [if_neg hbqk] at hok
      obtain ⟨hq, hd, hs⟩ := ih repo res hok
      refine ⟨?_, ?_, ?_⟩
      · intro x hx
        obtain ⟨hr, hb⟩ := hq x hx
        exact ⟨List.mem_cons_of_mem c hr, hb⟩
      · intro req hreq
        obtain ⟨hl, hb, hr⟩ := hd req hreq
        exact ⟨hl, hb, List.mem_cons_of_mem c hr⟩
      · exact hs

/-- A view region none of whose coordinates has a constructible quad key
produces no query, no dispatch, no repository change and no panic. -/
theorem requestLoop_all_none (apcOk : TileRequest → Bool)
    (bqk : WorldTileCoords → Option Quadkey) (layers : List String)
    (l : List WorldTileCoords) :
    ∀ repo : TileRepository, (∀ c ∈ l, bqk c = none) →
      requestLoop apcOk bqk layers repo l =
        .ok { repo := repo, queried := [], dispatched := [] } := by
  induction l with
  | nil => intro repo _; rfl
  | cons c rest ih =>
    intro repo hall
    unfold requestLoop
    rw [if_neg (by rw [hall c (List.mem_cons_self _ _)]; simp)]
    exact ih repo (fun x hx => hall x (List.mem_cons_of_mem c hx))

/-! ### Helper lemmas about the failure-reporting loop of `schedule` -/

theorem sendUnavailableLoop_all_ok (send : Message → Except SendError Unit)
    (coords : WorldTileCoords) :
    ∀ ls : List String,
      (∀ l ∈ ls, send (.layerUnavailable coords l) = .ok ()) →
      sendUnavailableLoop send coords ls =
        (ls.map (fun l => Message.layerUnavailable coords l), .ok ()) := by
  intro ls
  induction ls with
  | nil => intro _; rfl
  | cons l rest ih =>
    intro hall
    unfold sendUnavailableLoop
    rw [hall l (List.mem_cons_self _ _)]
    rw [ih (fun x hx => hall x (List.mem_cons_of_mem l hx))]
    rfl

theorem sendUnavailableLoop_fails_at (send : Message → Except SendError Unit)
    (coords : WorldTileCoords) (bad : String) (post : List String)
    (e : SendError) :
    ∀ pre : List String,
      (∀ l ∈ pre, send (.layerUnavailable coords l) = .ok ()) →
      send (.layerUnavailable coords bad) = .error e →
      sendUnavailableLoop send coords (pre ++ bad :: post) =
        (pre.map (fun l => Message.layerUnavailable coords l),
          .error (.send e)) := by
  intro pre
  induction pre with
  | nil =>
    intro _ hbad
    unfold sendUnavailableLoop
    dsimp only [List.nil_append]
    rw [hbad]
    rfl
  | cons l rest ih =>
    intro hpre hbad
    unfold sendUnavailableLoop
    dsimp only [List.cons_append]
    rw [hpre l (List.mem_cons_self _ _)]
    rw [ih (fun x hx => hpre x (List.mem_cons_of_mem l hx)) hbad]
    rfl

/-! ### Helper lemmas about `RequestStage.run` -/

theorem run_skip (apcOk : TileRequest → Bool)
    (bqk : WorldTileCoords → Option Quadkey) (repo : TileRepository)
    (vs : ViewState) (style : Style)
    (hcam : vs.did_camera_change = false)
    (hzoom : vs.did_zoom_change = false) :
    RequestStage.run apcOk bqk repo vs style =
      .ok { repo := repo, view_state := vs.update_references,
            queried := [], dispatched := [] } := by
  have hcond : ¬(vs.did_camera_change || vs.did_zoom_change) = true := by
    rw [hcam, hzoom]
    exact Bool.false_ne_true
  unfold RequestStage.run
  dsimp only
  rw [if_neg hcond]

theorem run_dispatch (apcOk : TileRequest → Bool)
    (bqk : WorldTileCoords → Option Quadkey) (repo : TileRepository)
    (vs : ViewState) (style : Style) (vr : List WorldTileCoords)
    (dres : DriverResult)
    (hchange : (vs.did_camera_change || vs.did_zoom_change) = true)
    (hregion : vs.create_view_region = some vr)
    (hview : RequestStage.request_tiles_in_view apcOk bqk repo style vr =
      .ok dres) :
    RequestStage.run apcOk bqk repo vs style =
      .ok { repo := dres.repo, view_state := vs.update_references,
            queried := dres.queried, dispatched := dres.dispatched } := by
  unfold RequestStage.run
  dsimp only
  rw [if_pos hchange, hregion]
  dsimp only
  rw [hview]

theorem run_ok_inv (apcOk : TileRequest → Bool)
    (bqk : WorldTileCoords → Option Quadkey) (repo : TileRepository)
    (vs : ViewState) (style : Style) (res : RunResult)
    (hok : RequestStage.run apcOk bqk repo vs style = .ok res) :
    res.view_state = vs.update_references ∧
    ((res.repo = repo ∧ res.queried = [] ∧ res.dispatched = []) ∨
      (∃ vr, vs.create_view_region = some vr ∧
        (vs.did_camera_change || vs.did_zoom_change) = true ∧
        RequestStage.request_tiles_in_view apcOk bqk repo style vr =
          .ok { repo := res.repo, queried := res.queried,
                dispatched := res.dispatched })) := by
  unfold RequestStage.run at hok
  dsimp only at hok
  by_cases hch : (vs.did_camera_change || vs.did_zoom_change) = true
  · rw [if_pos hch] at hok
    rcases hr : vs.create_view_region with _ | vr
    · rw [hr] at hok
      dsimp only at hok
      cases hok
      exact ⟨rfl, Or.inl ⟨rfl, rfl, rfl⟩⟩
    · rw [hr] at hok
      dsimp only at hok
      rcases hv : RequestStage.request_tiles_in_view apcOk bqk repo style vr
          with _ | dres
      · rw [hv] at hok
        cases hok
      · rw [hv] at hok
        dsimp only at hok
        cases hok
        exact ⟨rfl, Or.inr ⟨vr, rfl, hch, by rw [hv]⟩⟩
  · rw [if_neg hch] at hok
    dsimp only at hok
    cases hok
    exact ⟨rfl, Or.inl ⟨rfl, rfl, rfl⟩⟩

theorem run_ok_inv_dispatch (apcOk : TileRequest → Bool)
    (bqk : WorldTileCoords → Option Quadkey) (repo : TileRepository)
    (vs : ViewState) (style : Style) (vr : List WorldTileCoords)
    (res : RunResult)
    (hchange : (vs.did_camera_change || vs.did_zoom_change) = true)
    (hregion : vs.create_view_region = some vr)
    (hok : RequestStage.run apcOk bqk repo vs style = .ok res) :
    res.view_state = vs.update_references ∧
    RequestStage.request_tiles_in_view apcOk bqk repo style vr =
      .ok { repo := res.repo, queried := res.queried,
            dispatched := res.dispatched } := by
  unfold RequestStage.run at hok
  dsimp only at hok
  rw [if_pos hchange, hregion] at hok
  dsimp only at hok
  rcases hv : RequestStage.request_tiles_in_view apcOk bqk repo style vr
      with _ | dres
  · rw [hv] at hok
    cases hok
  · rw [hv] at hok
    dsimp only at hok
    cases hok
    exact ⟨rfl, rfl⟩

/-- Concrete fixtures used by the claim witnesses. -/
def originTile : WorldTileCoords := { x := 0, y := 0, z := 0 }

def vsZoomW : ViewState :=
  { camera := 0, zoom := 100, camera_reference := 0, zoom_reference := 0,
    camera_epsilon := 5, zoom_epsilon := 5, region := some [originTile] }

def vsStillW : ViewState :=
  { camera := 0, zoom := 0, camera_reference := 0, zoom_reference := 0,
    camera_epsilon := 5, zoom_epsilon := 5, region := some [originTile] }

def styleW : Style := { layers := [{ source_layer := some "water" }] }

def bqkSomeW : WorldTileCoords → Option Quadkey := fun _ => some { digits := [] }

def bqkNoneW : WorldTileCoords → Option Quadkey := fun _ => none

def apcOkW : TileRequest → Bool := fun _ => true

/-! ### The claims -/

/-- C1: in a Request Stage invocation that recomputes the view region
(a change detector fired and a region exists), each visible coordinate
with a constructible quad key triggers exactly one needs-fetch query of
the tile repository (the query being true iff no entry exists or the
entry is not Pending/Ready), and a tile is marked Pending and a
TileRequest dispatched for exactly those queried coordinates whose query
answers true. -/
theorem C1_needs_fetch_gating (apcOk : TileRequest → Bool)
    (bqk : WorldTileCoords → Option Quadkey) (repo : TileRepository)
    (vs : ViewState) (style : Style) (vr : List WorldTileCoords)
    (res : RunResult)
    (hchange : (vs.did_camera_change || vs.did_zoom_change) = true)
    (hregion : vs.create_view_region = some vr)
    (hnodup : vr.Nodup)
    (hok : RequestStage.run apcOk bqk repo vs style = .ok res) :
    (∀ c, repo.is_tile_pending_or_done c = true ↔
      (repo.statusOf c = none ∨
        (repo.statusOf c ≠ some .pending ∧ repo.statusOf c ≠ some .ready))) ∧
    res.queried = vr.filter (fun c => (bqk c).isSome) ∧
    res.dispatched =
      ((vr.filter (fun c => (bqk c).isSome)).filter
          (fun c => repo.is_tile_pending_or_done c)).map
        (fun c => { coords := c, layers := style.source_layer_names }) ∧
    (∀ req ∈ res.dispatched,
      res.repo.statusOf req.coords = some TileStatus.pending) := by
  obtain ⟨-, hv⟩ :=
    run_ok_inv_dispatch apcOk bqk repo vs style vr res hchange hregion hok
  unfold RequestStage.request_tiles_in_view at hv
  obtain ⟨hq, hd, hs⟩ :=
    requestLoop_ok_char apcOk bqk style.source_layer_names vr repo _ hnodup hv
  dsimp only at hq hd hs
  refine ⟨TileRepository.gate_iff repo, hq, hd, ?_⟩
  intro req hreq
  rw [hd] at hreq
  obtain ⟨c, hc, hceq⟩ := List.mem_map.mp hreq
  have := hs req.coords
  rw [if_pos (by rw [← hceq]; exact hc)] at this
  exact this

/-- Witness for C1 at a concrete input: one visible coordinate, an empty
repository, a zoom change; the coordinate is queried once and
dispatched. -/
theorem C1_needs_fetch_gating_witness :
    (vsZoomW.did_camera_change || vsZoomW.did_zoom_change) = true ∧
    ([originTile].Nodup) ∧
    [originTile] = [originTile].filter (fun c => (bqkSomeW c).isSome) ∧
    [({ coords := originTile, layers := ["water"] } : TileRequest)] =
      (([originTile].filter (fun c => (bqkSomeW c).isSome)).filter
        (fun c => TileRepository.is_tile_pending_or_done [] c)).map
        (fun c => { coords := c, layers := styleW.source_layer_names }) := by
  have h := C1_needs_fetch_gating apcOkW bqkSomeW [] vsZoomW styleW [originTile]
    { repo := [(originTile, .pending)],
      view_state := vsZoomW.update_references,
      queried := [originTile],
      dispatched := [{ coords := originTile, layers := ["water"] }] }
    (by rfl) (by rfl) (by simp) (by rfl)
  exact ⟨by rfl, by simp, h.2.1, h.2.2.1⟩

/-- C3: when neither change detector reports a change exceeding its
epsilon threshold, enumeration and the whole request cycle are skipped —
no query, no Pending mark, no dispatch, repository unchanged — even if
tiles are still missing; when the zoom delta alone exceeds its own
threshold, dispatching proceeds through `request_tiles_in_view`. -/
theorem C3_hysteresis (apcOk : TileRequest → Bool)
    (bqk : WorldTileCoords → Option Quadkey) (repo : TileRepository)
    (vs : ViewState) (style : Style) (vr : List WorldTileCoords)
    (dres : DriverResult) :
    (vs.did_camera_change = false → vs.did_zoom_change = false →
      RequestStage.run apcOk bqk repo vs style =
        .ok { repo := repo, view_state := vs.update_references,
              queried := [], dispatched := [] }) ∧
    (vs.did_zoom_change = true → vs.create_view_region = some vr →
      RequestStage.request_tiles_in_view apcOk bqk repo style vr = .ok dres →
      RequestStage.run apcOk bqk repo vs style =
        .ok { repo := dres.repo, view_state := vs.update_references,
              queried := dres.queried, dispatched := dres.dispatched }) := by
  refine ⟨fun hcam hzoom => run_skip apcOk bqk repo vs style hcam hzoom, ?_⟩
  intro hzoom hregion hview
  exact run_dispatch apcOk bqk repo vs style vr dres
    (by rw [hzoom, Bool.or_true]) hregion hview

/-- Witness for C3: a still view performs zero dispatches while the
repository is empty; a zoom-only change dispatches the visible tile. -/
theorem C3_hysteresis_witness :
    vsStillW.did_camera_change = false ∧ vsStillW.did_zoom_change = false ∧
    RequestStage.run apcOkW bqkSomeW [] vsStillW styleW =
      .ok { repo := [], view_state := vsStillW.update_references,
            queried := [], dispatched := [] } ∧
    vsZoomW.did_camera_change = false ∧ vsZoomW.did_zoom_change = true ∧
    RequestStage.run apcOkW bqkSomeW [] vsZoomW styleW =
      .ok { repo := [(originTile, .pending)],
            view_state := vsZoomW.update_references,
            queried := [originTile],
            dispatched := [{ coords := originTile, layers := ["water"] }] } := by
  refine ⟨rfl, rfl, ?_, rfl, rfl, ?_⟩
  · exact (C3_hysteresis apcOkW bqkSomeW [] vsStillW styleW []
      { repo := [], queried := [], dispatched := [] }).1 rfl rfl
  · exact (C3_hysteresis apcOkW bqkSomeW [] vsZoomW styleW [originTile]
      { repo := [(originTile, .pending)], queried := [originTile],
        dispatched := [{ coords := originTile, layers := ["water"] }] }).2
      rfl rfl rfl

/-- C5: a view-region coordinate whose quad key is not constructible is
silently dropped: it is never queried, never dispatched, its repository
entry is untouched, and a region of only such coordinates is a complete
no-op without error. -/
theorem C5_unconstructible_dropped (apcOk : TileRequest → Bool)
    (bqk : WorldTileCoords → Option Quadkey) (repo : TileRepository)
    (style : Style) (vr : List WorldTileCoords) :
    (∀ res c,
      RequestStage.request_tiles_in_view apcOk bqk repo style vr = .ok res →
      bqk c = none →
      c ∉ res.queried ∧ (∀ req ∈ res.dispatched, req.coords ≠ c) ∧
      res.repo.statusOf c = repo.statusOf c) ∧
    ((∀ c ∈ vr, bqk c = none) →
      RequestStage.request_tiles_in_view apcOk bqk repo style vr =
        .ok { repo := repo, queried := [], dispatched := [] }) := by
  constructor
  · intro res c hok hnone
    unfold RequestStage.request_tiles_in_view at hok
    obtain ⟨hq, hd, hs⟩ :=
      requestLoop_ok_shape apcOk bqk style.source_layer_names vr repo res hok
    refine ⟨?_, ?_, hs c hnone⟩
    · intro hc
      have hb := (hq c hc).2
      rw [hnone] at hb
      simp at hb
    · intro req hreq hco
      have hb := (hd req hreq).2.1
      rw [hco, hnone] at hb
      simp at hb
  · intro hall
    unfold RequestStage.request_tiles_in_view
    exact requestLoop_all_none apcOk bqk style.source_layer_names vr repo hall

/-- Witness for C5: with no coordinate constructible, the pass is a
no-op and the coordinate is not queried. -/
theorem C5_unconstructible_dropped_witness :
    bqkNoneW originTile = none ∧
    RequestStage.request_tiles_in_view apcOkW bqkNoneW [] styleW [originTile] =
      .ok { repo := [], queried := [], dispatched := [] } ∧
    originTile ∉
      ({ repo := [], queried := [], dispatched := [] } : DriverResult).queried := by
  have h := C5_unconstructible_dropped apcOkW bqkNoneW [] styleW [originTile]
  have h2 := h.2 (fun c _ => rfl)
  have h1 := h.1 { repo := [], queried := [], dispatched := [] } originTile h2 rfl
  exact ⟨rfl, h2, h1.1⟩

/-- C7: every completed invocation of run leaves the view-state
references updated to the current camera pose and zoom, independent of
the change detectors, the view region and any dispatching. -/
theorem C7_references_update (apcOk : TileRequest → Bool)
    (bqk : WorldTileCoords → Option Quadkey) (repo : TileRepository)
    (vs : ViewState) (style : Style) (res : RunResult)
    (hok : RequestStage.run apcOk bqk repo vs style = .ok res) :
    res.view_state = vs.update_references ∧
    res.view_state.camera_reference = vs.camera ∧
    res.view_state.zoom_reference = vs.zoom := by
  obtain ⟨h1, -⟩ := run_ok_inv apcOk bqk repo vs style res hok
  exact ⟨h1, by rw [h1]; rfl, by rw [h1]; rfl⟩

/-- Witness for C7: a still view (no detector fired, nothing dispatched)
still updates the references. -/
theorem C7_references_update_witness :
    RequestStage.run apcOkW bqkSomeW [] vsStillW styleW =
      .ok { repo := [], view_state := vsStillW.update_references,
            queried := [], dispatched := [] } ∧
    vsStillW.update_references.camera_reference = vsStillW.camera ∧
    vsStillW.update_references.zoom_reference = vsStillW.zoom := by
  have h := C7_references_update apcOkW bqkSomeW [] vsStillW styleW
    { repo := [], view_state := vsStillW.update_references,
      queried := [], dispatched := [] } (by rfl)
  exact ⟨by rfl, h.2.1, h.2.2⟩

/-- C8: every dispatched TileRequest of an invocation carries the same
layer set: the distinct source-layer names of the active style's layers —
style layers without a source-layer name contribute nothing, and
duplicate names collapse to one. -/
theorem C8_layer_name_set (apcOk : TileRequest → Bool)
    (bqk : WorldTileCoords → Option Quadkey) (repo : TileRepository)
    (vs : ViewState) (style : Style) (res : RunResult)
    (hok : RequestStage.run apcOk bqk repo vs style = .ok res) :
    (∀ req ∈ res.dispatched, req.layers = style.source_layer_names) ∧
    style.source_layer_names.Nodup ∧
    (∀ s, s ∈ style.source_layer_names ↔
      ∃ layer ∈ style.layers, layer.source_layer = some s) := by
  refine ⟨?_, List.nodup_dedup _, fun s => ?_⟩
  · intro req hreq
    obtain ⟨-, hbr⟩ := run_ok_inv apcOk bqk repo vs style res hok
    rcases hbr with ⟨-, -, hdisp⟩ | ⟨vr, -, -, hv⟩
    · rw [hdisp] at hreq
      cases hreq
    · unfold RequestStage.request_tiles_in_view at hv
      obtain ⟨-, hd, -⟩ :=
        requestLoop_ok_shape apcOk bqk style.source_layer_names vr repo _ hv
      exact (hd req hreq).1
  · rw [Style.source_layer_names, List.mem_dedup, List.mem_filterMap]

/-- Witness for C8: the dispatched request of the zoom scenario carries
exactly the deduplicated source-layer name set of the style. -/
theorem C8_layer_name_set_witness :
    styleW.source_layer_names = ["water"] ∧
    styleW.source_layer_names.Nodup := by
  have h := C8_layer_name_set apcOkW bqkSomeW [] vsZoomW styleW
    { repo := [(originTile, .pending)],
      view_state := vsZoomW.update_references,
      queried := [originTile],
      dispatched := [{ coords := originTile, layers := ["water"] }] } (by rfl)
  exact ⟨rfl, h.2.1⟩

/-- C10: after the needs-fetch gate passes, `request_tile` unwraps both
the mark-pending result and the APC call result: under the spec-modelled
store the marking cannot fail once the gate has passed, and the driver
panics exactly when the APC call fails, completing normally when it
succeeds. -/
theorem C10_unwrap_after_gate (apcOk : TileRequest → Bool)
    (repo : TileRepository) (c : WorldTileCoords) (layers : List String)
    (hgate : repo.is_tile_pending_or_done c = true) :
    repo.mark_tile_pending c = .ok (repo.setStatus c .pending) ∧
    (apcOk { coords := c, layers := layers } = true →
      RequestStage.request_tile apcOk repo c layers =
        .ok { repo := repo.setStatus c TileStatus.pending, queried := [c],
              dispatched := [{ coords := c, layers := layers }] }) ∧
    (apcOk { coords := c, layers := layers } = false →
      RequestStage.request_tile apcOk repo c layers = .panicked) :=
  ⟨TileRepository.mark_tile_pending_of_gate repo c hgate,
    fun ha => request_tile_gate_true apcOk repo c layers hgate ha,
    fun ha => request_tile_apc_panic apcOk repo c layers hgate ha⟩

/-- Witness for C10: on an empty repository the gate passes, marking
succeeds, and a failing APC call panics the driver. -/
theorem C10_unwrap_after_gate_witness :
    TileRepository.is_tile_pending_or_done [] originTile = true ∧
    TileRepository.mark_tile_pending [] originTile =
      .ok (TileRepository.setStatus [] originTile .pending) ∧
    RequestStage.request_tile (fun _ => false) [] originTile ["water"] =
      .panicked := by
  have h := C10_unwrap_after_gate (fun _ => false) [] originTile ["water"] rfl
  exact ⟨rfl, h.1, h.2.2 rfl⟩

/-- C2: for a TileRequest whose data-source fetch fails, `schedule`
sends exactly one LayerUnavailable message per requested layer, each
carrying the request's coordinate and that layer's name, sends no
DecodedLayer message, and does not combine sibling layers into a single
failure. -/
theorem C2_fetch_failure_per_layer (env : ScheduleEnv) (req : TileRequest)
    (e : FetchError)
    (hfetch : env.fetch req.coords = .error e)
    (hnodup : req.layers.Nodup)
    (hsend : ∀ l ∈ req.layers,
      env.send (.layerUnavailable req.coords l) = .ok ()) :
    (schedule env (.tileRequest req)).sent =
      req.layers.map (fun l => Message.layerUnavailable req.coords l) ∧
    (∀ l ∈ req.layers,
      ((schedule env (.tileRequest req)).sent.count
        (Message.layerUnavailable req.coords l)) = 1) ∧
    (∀ c l, Message.decodedLayer c l ∉ (schedule env (.tileRequest req)).sent) ∧
    (schedule env (.tileRequest req)).result = .ok () := by
  have hloop := sendUnavailableLoop_all_ok env.send req.coords req.layers hsend
  have hsched : schedule env (.tileRequest req) =
      { fetched := [req.coords],
        sent := req.layers.map (fun l => Message.layerUnavailable req.coords l),
        result := .ok () } := by
    unfold schedule
    dsimp only
    rw [hfetch]
    dsimp only
    rw [hloop]
  rw [hsched]
  have hinj : Function.Injective
      (fun l => Message.layerUnavailable req.coords l) := by
    intro a b hab
    injection hab with h1 h2
  refine ⟨rfl, ?_, ?_, rfl⟩
  · intro l hl
    rw [List.count_map_of_injective _ _ hinj]
    exact List.count_eq_one_of_mem hnodup hl
  · intro c l hmem
    obtain ⟨x, -, hx⟩ := List.mem_map.mp hmem
    exact Message.noConfusion hx

/-- Witness for C2: a two-layer request with a timed-out fetch yields
exactly the two LayerUnavailable messages and an Ok result. -/
theorem C2_fetch_failure_per_layer_witness :
    (schedule
      { fetch := fun _ => .error .timeout,
        process := fun _ _ => ([], .ok ()),
        send := fun _ => .ok () }
      (.tileRequest { coords := originTile, layers := ["water", "roads"] })).sent =
      [Message.layerUnavailable originTile "water",
        Message.layerUnavailable originTile "roads"] ∧
    (schedule
      { fetch := fun _ => .error .timeout,
        process := fun _ _ => ([], .ok ()),
        send := fun _ => .ok () }
      (.tileRequest { coords := originTile, layers := ["water", "roads"] })).result =
      .ok () := by
  have h := C2_fetch_failure_per_layer
    { fetch := fun _ => .error .timeout,
      process := fun _ _ => ([], .ok ()),
      send := fun _ => .ok () }
    { coords := originTile, layers := ["water", "roads"] }
    .timeout rfl (by simp) (fun l _ => rfl)
  exact ⟨h.1, h.2.2.2⟩

/-- C4: an input that is not the TileRequest variant makes `schedule`
return IncompatibleInput gracefully: no fetch is performed and no
message is sent. -/
theorem C4_incompatible_input (env : ScheduleEnv) :
    schedule env Input.other =
      { fetched := [], sent := [],
        result := .error .incompatibleInput } := rfl

/-- C6: when the fetch succeeds but the processing pipeline invocation
fails, `schedule` short-circuits the remaining work (no per-layer
failure reporting) and returns Execution wrapping the pipeline's
error. -/
theorem C6_pipeline_error_execution (env : ScheduleEnv) (req : TileRequest)
    (data : List Nat) (msgs : List Message) (e : PipelineError)
    (hfetch : env.fetch req.coords = .ok data)
    (hproc : env.process req data = (msgs, .error e)) :
    schedule env (.tileRequest req) =
      { fetched := [req.coords], sent := msgs,
        result := .error (.execution e) } := by
  unfold schedule
  dsimp only
  rw [hfetch]
  dsimp only
  rw [hproc]

/-- Witness for C6: a successful fetch whose pipeline rejects the
payload surfaces the pipeline error as Execution. -/
theorem C6_pipeline_error_execution_witness :
    schedule
      { fetch := fun _ => .ok [1, 2],
        process := fun _ _ => ([], .error { msg := "corrupt" }),
        send := fun _ => .ok () }
      (.tileRequest { coords := originTile, layers := ["water"] }) =
      { fetched := [originTile], sent := [],
        result := .error (.execution { msg := "corrupt" }) } :=
  C6_pipeline_error_execution
    { fetch := fun _ => .ok [1, 2],
      process := fun _ _ => ([], .error { msg := "corrupt" }),
      send := fun _ => .ok () }
    { coords := originTile, layers := ["water"] }
    [1, 2] [] { msg := "corrupt" } rfl rfl

/-- C9: if, while reporting a failed fetch, the send of a
LayerUnavailable message fails for some layer, `schedule` returns Send
immediately: exactly the layers before the failing one in the iteration
order have been delivered, and no layer after it receives a message. -/
theorem C9_send_failure_stops (env : ScheduleEnv) (req : TileRequest)
    (fe : FetchError) (e : SendError) (pre : List String) (bad : String)
    (post : List String)
    (hfetch : env.fetch req.coords = .error fe)
    (hlayers : req.layers = pre ++ bad :: post)
    (hnodup : req.layers.Nodup)
    (hpre : ∀ l ∈ pre, env.send (.layerUnavailable req.coords l) = .ok ())
    (hbad : env.send (.layerUnavailable req.coords bad) = .error e) :
    (schedule env (.tileRequest req)).result = .error (.send e) ∧
    (schedule env (.tileRequest req)).sent =
      pre.map (fun l => Message.layerUnavailable req.coords l) ∧
    (∀ l ∈ post,
      Message.layerUnavailable req.coords l ∉
        (schedule env (.tileRequest req)).sent) := by
  have hloop := sendUnavailableLoop_fails_at env.send req.coords bad post e
    pre hpre hbad
  have hsched : schedule env (.tileRequest req) =
      { fetched := [req.coords],
        sent := pre.map (fun l => Message.layerUnavailable req.coords l),
        result := .error (.send e) } := by
    unfold schedule
    dsimp only
    rw [hfetch]
    dsimp only
    rw [hlayers, hloop]
  rw [hsched]
  refine ⟨rfl, rfl, ?_⟩
  intro l hlpost hmem
  obtain ⟨x, hxpre, hx⟩ := List.mem_map.mp hmem
  injection hx with h1 h2
  rw [hlayers] at hnodup
  have hdisj := List.disjoint_of_nodup_append hnodup
  exact hdisj (h2 ▸ hxpre) (List.mem_cons_of_mem bad hlpost)

/-- Witness for C9: the send for "roads" fails, so "water" is delivered,
the result is a Send error, and "poi" receives nothing. -/
theorem C9_send_failure_stops_witness :
    (schedule
      { fetch := fun _ => .error .timeout,
        process := fun _ _ => ([], .ok ()),
        send := fun m =>
          match m with
          | .layerUnavailable _ "roads" => .error { msg := "gone" }
          | _ => .ok () }
      (.tileRequest
        { coords := originTile, layers := ["water", "roads", "poi"] })).result =
      .error (.send { msg := "gone" }) ∧
    (schedule
      { fetch := fun _ => .error .timeout,
        process := fun _ _ => ([], .ok ()),
        send := fun m =>
          match m with
          | .layerUnavailable _ "roads" => .error { msg := "gone" }
          | _ => .ok () }
      (.tileRequest
        { coords := originTile, layers := ["water", "roads", "poi"] })).sent =
      [Message.layerUnavailable originTile "water"] := by
  have h := C9_send_failure_stops
    { fetch := fun _ => .error .timeout,
      process := fun _ _ => ([], .ok ()),
      send := fun m =>
        match m with
        | .layerUnavailable _ "roads" => .error { msg := "gone" }
        | _ => .ok () }
    { coords := originTile, layers := ["water", "roads", "poi"] }
    .timeout { msg := "gone" } ["water"] "roads" ["poi"]
    rfl rfl (by simp) (fun l hl => by
      rcases List.mem_singleton.mp hl with rfl
      rfl) rfl
  exact ⟨h.1, h.2.1⟩

end Maplibre
